import Mathlib

/-
Verification of the modality-aware fusion module (src/model.py).

The numeric layer of the program (torch tensors of floats) is embedded
shallowly: a tensor of shape (b, t, c) becomes a function
Fin b -> Fin t -> Fin c -> Real, and every torch operation used by the
source (nn.Linear, chunk, view, transpose, matmul, softmax, LayerNorm,
GELU, elementwise add, cat) is translated to the corresponding pointwise
real computation.  Shape checking and the two call-time failure modes of
the source (tensor shape mismatches, and the keyword-argument mismatch in
the single-direction fusion paths) are modelled by a separate, fully
decidable shape-level semantics further below.
-/

noncomputable section

/-- A batch of sequences of feature vectors: torch tensor of shape (b, t, c). -/
abbrev T3 (b t c : ℕ) : Type := Fin b → Fin t → Fin c → ℝ

/-- nn.Linear applied to the trailing axis of a 3-d tensor:
    y[.., j] = sum_i x[.., i] * W[j, i] + bias[j]  (torch stores W as (out, in)). -/
def linear3 {b t din dout : ℕ} (W : Fin dout → Fin din → ℝ) (bias : Fin dout → ℝ)
    (x : T3 b t din) : T3 b t dout :=
  fun bb tt j => (∑ i, x bb tt i * W j i) + bias j

lemma mul_add_lt {i j h hd : ℕ} (hi : i < h) (hj : j < hd) : i * hd + j < h * hd := by
  calc i * hd + j < i * hd + hd := by omega
    _ = (i + 1) * hd := by ring
    _ ≤ h * hd := Nat.mul_le_mul_right hd hi

lemma div_lt_of_lt_mul {c h hd : ℕ} (hc : c < h * hd) : c / hd < h := by
  have hhd : 0 < hd := by
    rcases Nat.eq_zero_or_pos hd with h0 | h0
    · subst h0; omega
    · exact h0
  exact (Nat.div_lt_iff_lt_mul hhd).mpr hc

lemma mod_lt_of_lt_mul {c h hd : ℕ} (hc : c < h * hd) : c % hd < hd := by
  have hhd : 0 < hd := by
    rcases Nat.eq_zero_or_pos hd with h0 | h0
    · subst h0; omega
    · exact h0
  exact Nat.mod_lt _ hhd

/-- Feature index of slot j of head i after the source reshapes
    (B, T, h*hd) via view(B, T, h, hd): row-major layout. -/
def headIdx {h hd : ℕ} (i : Fin h) (j : Fin hd) : Fin (h * hd) :=
  ⟨i.val * hd + j.val, mul_add_lt i.isLt j.isLt⟩

/-- Index into the first half of chunk(2, dim=-1). -/
def chunkFst {d : ℕ} (c : Fin d) : Fin (2 * d) :=
  ⟨c.val, by have := c.isLt; omega⟩

/-- Index into the second half of chunk(2, dim=-1). -/
def chunkSnd {d : ℕ} (c : Fin d) : Fin (2 * d) :=
  ⟨d + c.val, by have := c.isLt; omega⟩

/-- view(B, T, h, hd) followed by transpose(1, 2): tensor (B, h, T, hd). -/
def splitHeads {b t h hd : ℕ} (x : T3 b t (h * hd)) :
    Fin b → Fin h → Fin t → Fin hd → ℝ :=
  fun bb i tt j => x bb tt (headIdx i j)

/-- transpose(1, 2) followed by view(B, T, h*hd): heads merged back. -/
def mergeHeads {b t h hd : ℕ} (x : Fin b → Fin h → Fin t → Fin hd → ℝ) :
    T3 b t (h * hd) :=
  fun bb tt c =>
    x bb ⟨c.val / hd, div_lt_of_lt_mul c.isLt⟩ tt ⟨c.val % hd, mod_lt_of_lt_mul c.isLt⟩

/-- Lines 56-57 of the source: reshape of the already head-split-and-
    transposed (B, h, T, hd) tensor K (resp. V) to shape (B, T, h, hd),
    followed by a second transpose(1, 2).  torch reshape reads the
    elements in row-major order of the current logical shape, so for
    h >= 2 and T >= 2 this is not the identity: it permutes entries
    across heads and positions.  Flattening gives
    result[b, i, t, j] = input[b, m / T, m % T, j] with m = t * h + i. -/
def reshuffle {b t h hd : ℕ} (x : Fin b → Fin h → Fin t → Fin hd → ℝ) :
    Fin b → Fin h → Fin t → Fin hd → ℝ :=
  fun bb i tt j =>
    x bb ⟨(tt.val * h + i.val) / t,
        div_lt_of_lt_mul (Nat.mul_comm t h ▸ mul_add_lt tt.isLt i.isLt)⟩
      ⟨(tt.val * h + i.val) % t,
        mod_lt_of_lt_mul (Nat.mul_comm t h ▸ mul_add_lt tt.isLt i.isLt)⟩ j

/-- Learnable parameters of MultiHeadCrossModalAttention with
    d_model = h * hd (h heads, head_dim hd): q_proj, kv_proj, out_proj. -/
structure MHAWeights (h hd : ℕ) where
  qW : Fin (h * hd) → Fin (h * hd) → ℝ
  qB : Fin (h * hd) → ℝ
  kvW : Fin (2 * (h * hd)) → Fin (h * hd) → ℝ
  kvB : Fin (2 * (h * hd)) → ℝ
  outW : Fin (h * hd) → Fin (h * hd) → ℝ
  outB : Fin (h * hd) → ℝ

/-- attn_scores of MultiHeadCrossModalAttention.forward: per head, Q @ K^T
    divided by scale = sqrt(head_dim), where Q = q_proj(query) and K is the
    first chunk of kv_proj(x), head-split at line 53 and then permuted by
    the line-56 reshape-and-transpose. -/
def attnScores {b tkv tq h hd : ℕ} (w : MHAWeights h hd)
    (x : T3 b tkv (h * hd)) (q : T3 b tq (h * hd)) :
    Fin b → Fin h → Fin tq → Fin tkv → ℝ :=
  fun bb i ii kk =>
    (∑ j, splitHeads (linear3 w.qW w.qB q) bb i ii j *
        reshuffle
          (splitHeads (fun b2 t2 c => linear3 w.kvW w.kvB x b2 t2 (chunkFst c)))
          bb i kk j) /
      Real.sqrt (hd : ℝ)

/-- Softmax along one axis: exp of each entry over the sum of the exps
    (the max-subtracted form used by torch is pointwise equal to this). -/
def softmaxRow {n : ℕ} (s : Fin n → ℝ) : Fin n → ℝ :=
  fun k => Real.exp (s k) / ∑ j, Real.exp (s j)

/-- attn_probs of MultiHeadCrossModalAttention.forward: softmax of the
    scores over the key axis (dim = -1). -/
def attnProbs {b tkv tq h hd : ℕ} (w : MHAWeights h hd)
    (x : T3 b tkv (h * hd)) (q : T3 b tq (h * hd)) :
    Fin b → Fin h → Fin tq → Fin tkv → ℝ :=
  fun bb i ii => softmaxRow (attnScores w x q bb i ii)

/-- MultiHeadCrossModalAttention.forward (src/model.py lines 37-65):
    x supplies keys and values, q supplies the queries; V is the second
    chunk of kv_proj(x), head-split at line 53 and permuted by the line-57
    reshape-and-transpose; heads are attended, merged and projected. -/
def mhaForward {b tkv tq h hd : ℕ} (w : MHAWeights h hd)
    (x : T3 b tkv (h * hd)) (q : T3 b tq (h * hd)) : T3 b tq (h * hd) :=
  linear3 w.outW w.outB
    (mergeHeads (fun bb i ii j =>
      ∑ kk, attnProbs w x q bb i ii kk *
        reshuffle
          (splitHeads (fun b2 t2 c => linear3 w.kvW w.kvB x b2 t2 (chunkSnd c)))
          bb i kk j))

/-- Mean of one feature vector, used by LayerNorm. -/
def tMean {d : ℕ} (v : Fin d → ℝ) : ℝ := (∑ i, v i) / d

/-- Biased variance of one feature vector, used by LayerNorm. -/
def tVar {d : ℕ} (v : Fin d → ℝ) : ℝ := (∑ i, (v i - tMean v) ^ 2) / d

/-- Epsilon of nn.LayerNorm at its torch default. -/
def lnEps : ℝ := 1e-5

/-- nn.LayerNorm over the trailing axis: per position, normalize the feature
    vector to zero mean and unit variance (with epsilon), then apply the
    learned elementwise scale g and shift s. -/
def layerNorm {b t d : ℕ} (g s : Fin d → ℝ) (eps : ℝ) (x : T3 b t d) : T3 b t d :=
  fun bb tt c =>
    (x bb tt c - tMean (x bb tt)) / Real.sqrt (tVar (x bb tt) + eps) * g c + s c

/-- Exact GELU as torch computes it by default: x times the standard
    Gaussian cumulative distribution at x. -/
def gelu (x : ℝ) : ℝ :=
  x * ((∫ t in Set.Iic x, Real.exp (-(t ^ 2) / 2)) / Real.sqrt (2 * Real.pi))

/-- Learnable parameters of FeedForward: fc1 (d -> dff) and fc2 (dff -> d).
    The num_modalities constructor argument of the source is bound but
    never used by FeedForward.__init__, so it has no weight here. -/
structure FFWeights (d dff : ℕ) where
  w1 : Fin dff → Fin d → ℝ
  b1 : Fin dff → ℝ
  w2 : Fin d → Fin dff → ℝ
  b2 : Fin d → ℝ

/-- FeedForward.forward (src/model.py line 99): fc2(gelu(fc1(x))). -/
def ffForward {b t d dff : ℕ} (w : FFWeights d dff) (x : T3 b t d) : T3 b t d :=
  linear3 w.w2 w.b2 (fun bb tt j => gelu (linear3 w.w1 w.b1 x bb tt j))

/-- The inner transform a ResidualBlock owns, mirroring the ModuleType
    dispatch of the source.  For the attention case the block dimension d
    must factor as h * hd; the equation is carried explicitly. -/
inductive InnerModule (d : ℕ) where
  | crossAttention (h hd : ℕ) (heq : d = h * hd) (w : MHAWeights h hd)
  | ffn (dff : ℕ) (w : FFWeights d dff)

/-- ResidualBlock state: prenorm flag, LayerNorm weights, inner module. -/
structure ResidualBlock (d : ℕ) where
  prenorm : Bool
  normG : Fin d → ℝ
  normB : Fin d → ℝ
  module : InnerModule d

/-- Reindex the feature axis along an equality of widths. -/
def castFeat {b t d d' : ℕ} (heq : d = d') (x : T3 b t d) : T3 b t d' :=
  fun bb tt c => x bb tt (Fin.cast heq.symm c)

/-- Reindex the sequence axis along an equality of lengths. -/
def castSeq {b t t' d : ℕ} (heq : t = t') (x : T3 b t d) : T3 b t' d :=
  fun bb tt c => x bb (Fin.cast heq.symm tt) c

/-- Lines 135-138 of the source: the normalization and residual wrapping
    applied to the inner output, in the chosen order. -/
def residWrap {b t d : ℕ} (prenorm : Bool) (g s : Fin d → ℝ) (x out : T3 b t d) :
    T3 b t d :=
  if prenorm then x + layerNorm g s lnEps out else layerNorm g s lnEps (x + out)

/-- ResidualBlock.forward (src/model.py lines 127-140).  The first argument
    x is the primary stream (for attention it supplies keys and values and
    the residual), the optional second argument is the query stream.
    Failure cases are reported as none: an attention block called without a
    context (q_proj applied to None raises a TypeError in the source), and
    a residual addition whose sequence lengths differ (torch refuses to add
    (b, t, d) to (b, tq, d) for t different from tq; the degenerate torch
    broadcast of a length-one axis is not exercised by any fusion path and
    is modelled as a mismatch as well). -/
def ResidualBlock.forward {d b t tq : ℕ} (rb : ResidualBlock d)
    (x : T3 b t d) (context : Option (T3 b tq d)) : Option (T3 b t d) :=
  match rb.module with
  | .crossAttention h hd heq w =>
    match context with
    | none => none
    | some qq =>
      if ht : tq = t then
        some (residWrap rb.prenorm rb.normG rb.normB x
          (castSeq ht (castFeat heq.symm (mhaForward w (castFeat heq x) (castFeat heq qq)))))
      else none
  | .ffn _ w => some (residWrap rb.prenorm rb.normG rb.normB x (ffForward w x))

/-- Learnable state of ModalityAwareFusion in BIDIRECTIONAL mode that the
    cross-attention stage uses: the two Residual(Attention) blocks. -/
structure BIWeights (h hd : ℕ) where
  x2yG : Fin (h * hd) → ℝ
  x2yB : Fin (h * hd) → ℝ
  x2yAttn : MHAWeights h hd
  y2xG : Fin (h * hd) → ℝ
  y2xB : Fin (h * hd) → ℝ
  y2xAttn : MHAWeights h hd

/-- A Residual(Attention) block as ModalityAwareFusion.__init__ builds it:
    the prenorm argument is left at its default False. -/
def mkAttnBlock (h hd : ℕ) (g s : Fin (h * hd) → ℝ) (w : MHAWeights h hd) :
    ResidualBlock (h * hd) :=
  ⟨false, g, s, .crossAttention h hd rfl w⟩

/-- torch.cat along dim = -1. -/
def catFeat {b t d1 d2 : ℕ} (u : T3 b t d1) (v : T3 b t d2) : T3 b t (d1 + d2) :=
  fun bb tt c =>
    if hc : c.val < d1 then u bb tt ⟨c.val, hc⟩
    else v bb tt ⟨c.val - d1, by have := c.isLt; omega⟩

/-- Lines 187-190 of ModalityAwareFusion.forward in BIDIRECTIONAL mode, up
    to and including the concatenation (the value fed to self.ffn):
    x2y = self.cross_x2y(y, x), y2x = self.cross_y2x(x, y),
    out = torch.cat([x2y, y2x], dim=-1).  The device moves on lines 184-185
    do not change values.  Inputs of equal sequence length are the only
    ones for which the residual additions inside the blocks are defined. -/
def fuseBIcat {b t h hd : ℕ} (w : BIWeights h hd) (x y : T3 b t (h * hd)) :
    Option (T3 b t (h * hd + h * hd)) :=
  match (mkAttnBlock h hd w.x2yG w.x2yB w.x2yAttn).forward y (some x),
        (mkAttnBlock h hd w.y2xG w.y2xB w.y2xAttn).forward x (some y) with
  | some u, some v => some (catFeat u v)
  | _, _ => none

/-- A post-norm Residual(Attention) application written out: the primary
    stream supplies keys, values and the residual, the second argument
    supplies the queries. -/
def residAttnPost {b t h hd : ℕ} (g s : Fin (h * hd) → ℝ) (w : MHAWeights h hd)
    (primary query : T3 b t (h * hd)) : T3 b t (h * hd) :=
  layerNorm g s lnEps (primary + mhaForward w primary query)

/-- The BIDIRECTIONAL data flow exactly as the specification states it
    (spec section 4.5): x2y is a Residual(Attention) pass with context
    (keys and values) the x stream and query the y stream, y2x the pass
    with context y and query x, and the two are concatenated in the order
    x2y then y2x along the feature axis. -/
def specBIcat {b t h hd : ℕ} (w : BIWeights h hd) (x y : T3 b t (h * hd)) :
    T3 b t (h * hd + h * hd) :=
  catFeat (residAttnPost w.x2yG w.x2yB w.x2yAttn x y)
    (residAttnPost w.y2xG w.y2xB w.y2xAttn y x)

/-- The reference multi-head cross-modal attention exactly as the
    specification words it (spec section 4.2, steps 1 to 8): Q from a
    linear map of the query; K and V the two halves of one linear map of
    width 2 * d_model applied to the context; per head, scores Q K^T
    divided by sqrt(d_model / H); softmax over the key axis; weighted sum
    over V; heads merged; final linear projection. -/
def mhaSpec {b tkv tq h hd : ℕ} (w : MHAWeights h hd)
    (context : T3 b tkv (h * hd)) (query : T3 b tq (h * hd)) : T3 b tq (h * hd) :=
  let Qm := linear3 w.qW w.qB query
  let KVm := linear3 w.kvW w.kvB context
  let K : T3 b tkv (h * hd) := fun bb tt c => KVm bb tt (chunkFst c)
  let V : T3 b tkv (h * hd) := fun bb tt c => KVm bb tt (chunkSnd c)
  let score : Fin b → Fin h → Fin tq → Fin tkv → ℝ := fun bb i ii kk =>
    (∑ j, Qm bb ii (headIdx i j) * K bb kk (headIdx i j)) /
      Real.sqrt ((h * hd / h : ℕ) : ℝ)
  let weightsP : Fin b → Fin h → Fin tq → Fin tkv → ℝ := fun bb i ii kk =>
    Real.exp (score bb i ii kk) / ∑ kk', Real.exp (score bb i ii kk')
  let headOut : Fin b → Fin h → Fin tq → Fin hd → ℝ := fun bb i ii j =>
    ∑ kk, weightsP bb i ii kk * V bb kk (headIdx i j)
  linear3 w.outW w.outB (mergeHeads headOut)

end

/-
Shape-level semantics.  Shapes are numeric triples, every operation of the
fusion forward pass is given its torch shape rule, and the two kinds of
call-time failure the source can hit are explicit error values.  All of
this is decidable, so concrete runs evaluate by rfl.
-/

/-- Torch shape of a 3-d tensor: (batch, sequence length, features). -/
abbrev Shape3 : Type := ℕ × ℕ × ℕ

/-- The failure modes the source can raise.  assertionFailure is the
    construction-time assert of MultiHeadCrossModalAttention.__init__;
    zeroDivision is what d_model % 0 raises in Python; shapeMismatch covers
    the call-time tensor shape errors; unexpectedKwarg is the TypeError
    raised when forward is called with keyword arguments it does not
    declare. -/
inductive PyErr where
  | shapeMismatch
  | unexpectedKwarg
  | assertionFailure
  | zeroDivision
deriving DecidableEq

/-- Shape rule of nn.Linear: trailing dimension must equal in_features. -/
def linearShape (din dout : ℕ) (s : Shape3) : Except PyErr Shape3 :=
  if s.2.2 = din then .ok (s.1, s.2.1, dout) else .error .shapeMismatch

/-- Shape rule of elementwise tensor addition as the fusion paths use it:
    equal shapes (the degenerate broadcast of a length-one axis is not
    exercised by any fusion path and is modelled as a mismatch). -/
def addShape (s1 s2 : Shape3) : Except PyErr Shape3 :=
  if s1 = s2 then .ok s1 else .error .shapeMismatch

/-- Shape rule of nn.LayerNorm(d): trailing dimension must equal d. -/
def lnShape (d : ℕ) (s : Shape3) : Except PyErr Shape3 :=
  if s.2.2 = d then .ok s else .error .shapeMismatch

/-- Shape rule of MultiHeadCrossModalAttention.forward: both inputs must
    carry d features, batches must agree; result is (B, T_q, d). -/
def mhaShape (d : ℕ) (xs qs : Shape3) : Except PyErr Shape3 :=
  if qs.2.2 = d ∧ xs.2.2 = d ∧ qs.1 = xs.1 then .ok (xs.1, qs.2.1, d)
  else .error .shapeMismatch

/-- Shape rule of a post-norm Residual(Attention) block: attention of
    (primary, query), then the residual addition with the primary stream,
    then LayerNorm(d). -/
def residAttnShape (d : ℕ) (xs qs : Shape3) : Except PyErr Shape3 := do
  let o ← mhaShape d xs qs
  let a ← addShape xs o
  lnShape d a

/-- Construction-time record of FeedForward.__init__ (src/model.py lines
    84-88): fc1 = Linear(d_model, d_ff), fc2 = Linear(d_ff, d_model); the
    num_modalities argument is accepted and ignored. -/
structure FFConfig where
  fc1In : ℕ
  fc1Out : ℕ
  fc2In : ℕ
  fc2Out : ℕ
deriving DecidableEq

/-- FeedForward.__init__: note num_modalities does not reach any field. -/
def FeedForward.init (d_model num_modalities d_ff : ℕ) : FFConfig :=
  { fc1In := d_model, fc1Out := d_ff, fc2In := d_ff, fc2Out := d_model }

/-- Shape rule of FeedForward.forward: fc1 then gelu (shape preserving)
    then fc2. -/
def ffShape (f : FFConfig) (s : Shape3) : Except PyErr Shape3 := do
  let a ← linearShape f.fc1In f.fc1Out s
  linearShape f.fc2In f.fc2Out a

/-- Shape rule of the post-norm Residual(FeedForward) block. -/
def residFFNShape (d : ℕ) (f : FFConfig) (s : Shape3) : Except PyErr Shape3 := do
  let o ← ffShape f s
  let a ← addShape s o
  lnShape d a

/-- Shape rule of torch.cat along dim = -1. -/
def catShape (s1 s2 : Shape3) : Except PyErr Shape3 :=
  if s1.1 = s2.1 ∧ s1.2.1 = s2.2.1 then .ok (s1.1, s1.2.1, s1.2.2 + s2.2.2)
  else .error .shapeMismatch

/-- The three fusion modes. -/
inductive Mode where
  | BI
  | X2Y
  | Y2X
deriving DecidableEq

/-- Construction-time state of ModalityAwareFusion (src/model.py lines
    150-181): the mode, d_model, num_heads, d_ff = 4 * d_model, and the
    FeedForward configuration of the trailing residual block, which is
    built with input width d_model in every mode. -/
structure Config where
  d_model : ℕ
  num_heads : ℕ
  mode : Mode
  d_ff : ℕ
  ffn : FFConfig
deriving DecidableEq

/-- ModalityAwareFusion.__init__ with the construction-time failure of the
    MultiHeadCrossModalAttention assert.  Every mode builds at least one
    attention block, so the assert runs in every mode; in Python a zero
    num_heads makes d_model % num_heads raise ZeroDivisionError first. -/
def mafInit (d_model num_modalities num_heads : ℕ) (devices : List ℕ) (mode : Mode) :
    Except PyErr Config :=
  if num_heads = 0 then .error .zeroDivision
  else if d_model % num_heads = 0 then
    .ok { d_model := d_model, num_heads := num_heads, mode := mode,
          d_ff := 4 * d_model,
          ffn := FeedForward.init d_model num_modalities (4 * d_model) }
  else .error .assertionFailure

/-- ModalityAwareFusion.forward (src/model.py lines 183-196) at the shape
    level.  The device moves on lines 184-185 change neither shapes nor
    values.  In BIDIRECTIONAL mode: x2y = cross_x2y(y, x), y2x =
    cross_y2x(x, y), concatenation, then the Residual(FeedForward) block.
    In the single-direction modes the source calls
    self.cross(Q=y, KV=x) resp. self.cross(Q=x, KV=y), but
    ResidualBlock.forward declares the parameters (x, context), so the
    interpreter raises a TypeError for the unexpected keyword arguments
    before any tensor work happens. -/
def fuseShape (cfg : Config) (xs ys : Shape3) : Except PyErr Shape3 :=
  match cfg.mode with
  | .BI => do
    let x2y ← residAttnShape cfg.d_model ys xs
    let y2x ← residAttnShape cfg.d_model xs ys
    let o ← catShape x2y y2x
    residFFNShape cfg.d_model cfg.ffn o
  | .X2Y => .error .unexpectedKwarg
  | .Y2X => .error .unexpectedKwarg

/-
Helper lemmas and concrete instances.
-/

noncomputable section

lemma castFeat_rfl {b t d : ℕ} (x : T3 b t d) : castFeat rfl x = x := by
  funext bb tt c
  simp [castFeat, Fin.cast]

lemma castSeq_rfl {b t d : ℕ} (x : T3 b t d) : castSeq rfl x = x := by
  funext bb tt c
  simp [castSeq, Fin.cast]

lemma attnForward_eq {b t h hd : ℕ} (pn : Bool) (g s : Fin (h * hd) → ℝ)
    (w : MHAWeights h hd) (x q : T3 b t (h * hd)) :
    (⟨pn, g, s, .crossAttention h hd rfl w⟩ : ResidualBlock (h * hd)).forward x (some q)
      = some (residWrap pn g s x (mhaForward w x q)) := by
  show (if ht : t = t then _ else none) = _
  rw [dif_pos rfl]
  simp [castSeq_rfl, castFeat_rfl]

lemma attnBlock_forward_some {b t h hd : ℕ} (g s : Fin (h * hd) → ℝ)
    (w : MHAWeights h hd) (x q : T3 b t (h * hd)) :
    (mkAttnBlock h hd g s w).forward x (some q) = some (residAttnPost g s w x q) := by
  rw [mkAttnBlock, attnForward_eq]
  simp [residWrap, residAttnPost]

lemma fuseBIcat_unfold {b t h hd : ℕ} (w : BIWeights h hd) (x y : T3 b t (h * hd)) :
    fuseBIcat w x y
      = some (catFeat (residAttnPost w.x2yG w.x2yB w.x2yAttn y x)
          (residAttnPost w.y2xG w.y2xB w.y2xAttn x y)) := by
  rw [fuseBIcat, attnBlock_forward_some, attnBlock_forward_some]

/-- All-zero attention weights at one head of head dimension two. -/
def zmha : MHAWeights 1 2 :=
  ⟨fun _ _ => 0, fun _ => 0, fun _ _ => 0, fun _ => 0, fun _ _ => 0, fun _ => 0⟩

/-- With a zero output projection, the attention output is zero whatever
    the inputs and the remaining weights are. -/
lemma mhaForward_zmha {tkv tq : ℕ} (x : T3 1 tkv (1 * 2)) (q : T3 1 tq (1 * 2)) :
    mhaForward zmha x q = fun _ _ _ => (0 : ℝ) := by
  funext bb tt c
  simp [mhaForward, linear3, zmha]

/-- The zero tensor at shape (1, 1, 2). -/
def zeroT : T3 1 1 (1 * 2) := fun _ _ _ => 0

/-- A tensor at shape (1, 1, 2) whose single feature vector is (0, 2). -/
def twoT : T3 1 1 (1 * 2) := fun _ _ c => if c.val = 1 then 2 else 0

/-- Bidirectional weights: zero attention weights, LayerNorm scale one and
    shift zero on both blocks (the torch initialization of LayerNorm). -/
def biW0 : BIWeights 1 2 :=
  ⟨fun _ => 1, fun _ => 0, zmha, fun _ => 1, fun _ => 0, zmha⟩

end

/-
Claim theorems.
-/

/-- The configuration ModalityAwareFusion(d_model=8, num_modalities=1,
    num_heads=2, mode=BI) produces. -/
def cfgBI8 : Config :=
  { d_model := 8, num_heads := 2, mode := Mode.BI, d_ff := 32,
    ffn := ⟨8, 32, 32, 8⟩ }

/-- C2: the claim says the A-ATTENDS-B (X2Y) call performs one
    Residual(Attention) pass and completes without error on shape-valid
    inputs.  The code cannot: line 192 calls self.cross(Q=y, KV=x), and
    ResidualBlock.forward declares parameters (x, context), so every X2Y
    call raises a TypeError for the unexpected keyword arguments.  This
    theorem evaluates the code at every input: the call always fails. -/
theorem x2y_mode_always_raises (d nh dff : ℕ) (f : FFConfig) (xs ys : Shape3) :
    fuseShape ⟨d, nh, Mode.X2Y, dff, f⟩ xs ys = .error .unexpectedKwarg := rfl

/-- C3: the claim says fuse in BIDIRECTIONAL mode with d_model=8,
    num_heads=2, batch=2, T_x=3, T_y=4 succeeds with output (2, 4, 8).
    Construction succeeds and yields cfgBI8, but the call fails: the
    residual additions inside the attention blocks mix the two sequence
    lengths (4 versus 3), and even with equal lengths the concatenated
    2 * d_model = 16 features meet a Residual(FeedForward) block whose
    fc1 was built with in_features = d_model = 8 (lines 179-181 size it
    with d_model in every mode), so the call still fails. -/
theorem bi_concrete_test_fails :
    mafInit 8 1 2 [0, 1] Mode.BI = .ok cfgBI8
    ∧ fuseShape cfgBI8 (2, 3, 8) (2, 4, 8) = .error .shapeMismatch
    ∧ fuseShape cfgBI8 (2, 4, 8) (2, 4, 8) = .error .shapeMismatch :=
  ⟨rfl, rfl, rfl⟩

/-- C7: construction asserts that d_model is divisible by num_heads.  For
    positive num_heads (the constructor domain the interface section
    fixes), construction raises the assertion exactly when num_heads does
    not divide d_model, and otherwise completes with the expected state. -/
theorem construction_divisibility (d nm nh : ℕ) (dev : List ℕ) (m : Mode)
    (hh : 0 < nh) :
    (mafInit d nm nh dev m = .error .assertionFailure ↔ ¬ d % nh = 0)
    ∧ (d % nh = 0 → mafInit d nm nh dev m =
        .ok { d_model := d, num_heads := nh, mode := m, d_ff := 4 * d,
              ffn := FeedForward.init d nm (4 * d) }) := by
  have hz : ¬ nh = 0 := Nat.pos_iff_ne_zero.mp hh
  constructor
  · unfold mafInit
    rw [if_neg hz]
    split_ifs with h0
    · simp [h0]
    · simp [h0]
  · intro h0
    unfold mafInit
    rw [if_neg hz, if_pos h0]

/-- Witness for C7 at the concrete inputs the claim names: d_model=10 with
    num_heads=3 fails the assert, d_model=8 with num_heads=2 constructs. -/
theorem construction_divisibility_witness :
    mafInit 10 1 3 [0, 1] Mode.BI = .error .assertionFailure
    ∧ mafInit 8 1 2 [0, 1] Mode.BI =
        .ok { d_model := 8, num_heads := 2, mode := Mode.BI, d_ff := 32,
              ffn := FeedForward.init 8 1 32 } :=
  ⟨(construction_divisibility 10 1 3 [0, 1] Mode.BI (by decide)).1.mpr (by decide),
   (construction_divisibility 8 1 2 [0, 1] Mode.BI (by decide)).2 (by decide)⟩

/-- C8 counterexample: the claim says some pair of configurations
    differing only in num_modalities gives different FeedForward hidden
    widths.  No such pair exists: FeedForward.__init__ binds
    num_modalities and never uses it, and ModalityAwareFusion passes
    d_ff = 4 * d_model, so the hidden width (fc1 out_features) never
    depends on num_modalities. -/
theorem num_modalities_width_cex :
    ¬ ∃ (d nh nm nm' : ℕ) (dev : List ℕ) (m : Mode) (c c' : Config),
        nm ≠ nm' ∧ mafInit d nm nh dev m = .ok c ∧ mafInit d nm' nh dev m = .ok c'
        ∧ c.ffn.fc1Out ≠ c'.ffn.fc1Out := by
  rintro ⟨d, nh, nm, nm', dev, m, c, c', -, h1, h2, hne⟩
  unfold mafInit at h1 h2
  by_cases hz : nh = 0
  · simp [hz] at h1
  · by_cases hm : d % nh = 0
    · simp [hz, hm] at h1 h2
      exact hne (by rw [← h1, ← h2]; rfl)
    · simp [hz, hm] at h1

/-- C8 amended: the FeedForward hidden width of a constructed fusion
    module does not depend on num_modalities at all; it always equals
    4 * d_model. -/
theorem ffn_hidden_width_ignores_num_modalities (d nh nm nm' : ℕ)
    (dev : List ℕ) (m : Mode) :
    (mafInit d nm nh dev m).map (fun c => c.ffn.fc1Out)
      = (mafInit d nm' nh dev m).map (fun c => c.ffn.fc1Out)
    ∧ (mafInit d nm nh dev m).map (fun c => c.ffn.fc1Out)
      = (mafInit d nm nh dev m).map (fun _ => 4 * d) := by
  unfold mafInit
  split_ifs <;> simp [Except.map, FeedForward.init]

/-- C9: the fusion forward pass is a pure function of the weights and the
    inputs, at the shape level and at the value level: two calls on
    identical state produce identical results. -/
theorem fuse_deterministic {h hd b t : ℕ} (cfg cfg' : Config)
    (xs xs' ys ys' : Shape3) (w w' : BIWeights h hd)
    (x x' y y' : T3 b t (h * hd))
    (h1 : cfg = cfg') (h2 : xs = xs') (h3 : ys = ys')
    (h4 : w = w') (h5 : x = x') (h6 : y = y') :
    fuseShape cfg xs ys = fuseShape cfg' xs' ys'
    ∧ fuseBIcat w x y = fuseBIcat w' x' y' := by
  subst h1; subst h2; subst h3; subst h4; subst h5; subst h6
  exact ⟨rfl, rfl⟩

/-- Witness for C9 at concrete state. -/
theorem fuse_deterministic_witness :
    fuseShape cfgBI8 (2, 4, 8) (2, 4, 8) = fuseShape cfgBI8 (2, 4, 8) (2, 4, 8)
    ∧ fuseBIcat biW0 zeroT twoT = fuseBIcat biW0 zeroT twoT :=
  fuse_deterministic cfgBI8 cfgBI8 (2, 4, 8) (2, 4, 8) (2, 4, 8) (2, 4, 8)
    biW0 biW0 zeroT zeroT twoT twoT rfl rfl rfl rfl rfl rfl

/-- C10: a ResidualBlock whose inner transform is the FeedForward module
    ignores its optional context argument entirely: any two context
    values, of any sequence lengths, None included, give the same output. -/
theorem ffn_block_ignores_context {d dff b t tq1 tq2 : ℕ} (w : FFWeights d dff)
    (g s : Fin d → ℝ) (pn : Bool) (x : T3 b t d)
    (c1 : Option (T3 b tq1 d)) (c2 : Option (T3 b tq2 d)) :
    (⟨pn, g, s, .ffn dff w⟩ : ResidualBlock d).forward x c1
      = (⟨pn, g, s, .ffn dff w⟩ : ResidualBlock d).forward x c2 := rfl

/-- C4: the ResidualBlock output is exactly the post-norm formula
    LayerNorm(x + inner(x, context)) when prenorm is off, and exactly
    x + LayerNorm(inner(x, context)) when prenorm is on (the residual uses
    the un-normalized x), for both inner transforms. -/
theorem residual_block_formula {d dff h hd b t tq : ℕ} (fw : FFWeights d dff)
    (aw : MHAWeights h hd) (g1 s1 : Fin d → ℝ) (g2 s2 : Fin (h * hd) → ℝ)
    (pn : Bool) (x : T3 b t d) (ctx : Option (T3 b tq d))
    (xa q : T3 b t (h * hd)) :
    (⟨pn, g1, s1, .ffn dff fw⟩ : ResidualBlock d).forward x ctx
      = some (if pn then x + layerNorm g1 s1 lnEps (ffForward fw x)
              else layerNorm g1 s1 lnEps (x + ffForward fw x))
    ∧ (⟨pn, g2, s2, .crossAttention h hd rfl aw⟩ :
          ResidualBlock (h * hd)).forward xa (some q)
      = some (if pn then xa + layerNorm g2 s2 lnEps (mhaForward aw xa q)
              else layerNorm g2 s2 lnEps (xa + mhaForward aw xa q)) := by
  constructor
  · show some (residWrap pn g1 s1 x (ffForward fw x)) = _
    cases pn <;> simp [residWrap]
  · rw [attnForward_eq]
    cases pn <;> simp [residWrap]

/-- C1 amended: in BIDIRECTIONAL mode the value handed to the trailing
    Residual(FeedForward) block is the concatenation, along the feature
    axis, of x2y and y2x, where x2y is the Residual(Attention) pass of the
    cross_x2y block with context (keys and values) the y stream and query
    the x stream, and y2x is the pass of the cross_y2x block with context
    the x stream and query the y stream: the opposite pairing of the one
    the claim states. -/
theorem bidirectional_cat_wiring {b t h hd : ℕ} (w : BIWeights h hd)
    (x y : T3 b t (h * hd)) :
    fuseBIcat w x y
      = some (catFeat (residAttnPost w.x2yG w.x2yB w.x2yAttn y x)
          (residAttnPost w.y2xG w.y2xB w.y2xAttn x y)) :=
  fuseBIcat_unfold w x y

/-- All-zero attention weights at one head of head dimension one. -/
def zmha1 : MHAWeights 1 1 :=
  ⟨fun _ _ => 0, fun _ => 0, fun _ _ => 0, fun _ => 0, fun _ _ => 0, fun _ => 0⟩

/-- The zero tensor at shape (1, 1, 1). -/
def zT1 : T3 1 1 (1 * 1) := fun _ _ _ => 0

lemma reshuffle_one_head {b t hd : ℕ} (y : Fin b → Fin 1 → Fin t → Fin hd → ℝ) :
    reshuffle y = y := by
  funext bb i tt j
  obtain ⟨iv, hiv⟩ := i
  have hiv0 : iv = 0 := by omega
  subst hiv0
  simp only [reshuffle, mul_one, add_zero, Nat.div_eq_of_lt tt.isLt,
    Nat.mod_eq_of_lt tt.isLt]

/-- Attention weights of the C5 counterexample: zero q_proj (so the scores
    vanish and attention is uniform), kv_proj whose V half is the identity
    and whose K half is zero, identity out_proj.  Two heads of head
    dimension one. -/
def cexW : MHAWeights 2 1 :=
  ⟨fun _ _ => 0, fun _ => 0,
   fun r c => if r.val = c.val + 2 then 1 else 0, fun _ => 0,
   fun r c => if r.val = c.val then 1 else 0, fun _ => 0⟩

/-- Context of the C5 counterexample: batch 1, two key positions, two
    features; only position 0, feature 1 carries a one. -/
def cexX : T3 1 2 (2 * 1) := fun _ tt c => if tt.val = 0 ∧ c.val = 1 then 1 else 0

/-- Query of the C5 counterexample: a single zero query position. -/
def cexQ : T3 1 1 (2 * 1) := fun _ _ _ => 0

lemma sum_fin_two_mul_one (f : Fin (2 * 1) → ℝ) :
    (∑ x, f x) = f ⟨0, by omega⟩ + f ⟨1, by omega⟩ :=
  Fin.sum_univ_two f

/-- C5 counterexample: with two heads of head dimension one, two key
    positions, zero queries (uniform attention) and an identity-like V
    path, the source attention differs from the reference algorithm of
    the specification: the line-56-57 reshape permutes V across heads and
    key positions, so head 0 of the source averages the two features of
    key position 0 while the reference averages feature 0 across the two
    key positions. -/
theorem mha_spec_cex : mhaForward cexW cexX cexQ ≠ mhaSpec cexW cexX cexQ := by
  intro heq
  have h4 := congrFun (congrFun (congrFun heq ⟨0, by omega⟩) ⟨0, by omega⟩) ⟨0, by omega⟩
  simp only [mhaForward, mhaSpec, attnProbs, attnScores, softmaxRow, splitHeads,
    mergeHeads, reshuffle, linear3, headIdx, chunkFst, chunkSnd, cexW, cexX, cexQ,
    sum_fin_two_mul_one, Fin.sum_univ_one, Fin.sum_univ_two] at h4
  norm_num [Real.sqrt_one, Real.exp_zero] at h4

/-- C5 amended: the source attention equals the reference algorithm of
    the specification in the single-head case (where the line-56-57
    reshape is the identity), and for every valid configuration the
    output shape is (B, T_q, d_model).  With several heads and several
    key positions the source instead attends with K and V permuted by
    that reshape, refuted separately at a concrete input. -/
theorem mha_single_head_matches_spec {b tkv tq hd : ℕ} (w : MHAWeights 1 hd)
    (x : T3 b tkv (1 * hd)) (q : T3 b tq (1 * hd)) :
    mhaForward w x q = mhaSpec w x q
    ∧ ∀ h' hd' B T1 T2 : ℕ,
        mhaShape (h' * hd') (B, T1, h' * hd') (B, T2, h' * hd') = .ok (B, T2, h' * hd') := by
  constructor
  · have hscale : (1 * hd / 1 : ℕ) = hd := Nat.mul_div_cancel_left hd one_pos
    funext bb tt c
    simp only [mhaForward, mhaSpec, attnProbs, attnScores, softmaxRow, splitHeads,
      reshuffle_one_head, hscale]
  · intro h' hd' B T1 T2
    simp [mhaShape]

/-- C6: for every input pair and every (batch, head, query position)
    triple, the attention weights the source computes along the key axis
    are non-negative and sum to one exactly (the real-number model has no
    floating-point tolerance to spend), provided the key axis is
    non-empty. -/
theorem attn_probs_distribution {b tkv tq h hd : ℕ} (w : MHAWeights h hd)
    (x : T3 b tkv (h * hd)) (q : T3 b tq (h * hd)) (ht : 0 < tkv)
    (bb : Fin b) (i : Fin h) (ii : Fin tq) :
    (∑ kk, attnProbs w x q bb i ii kk) = 1
    ∧ ∀ kk, 0 ≤ attnProbs w x q bb i ii kk := by
  have hpos : 0 < ∑ j, Real.exp (attnScores w x q bb i ii j) := by
    apply Finset.sum_pos (fun j _ => Real.exp_pos _)
    exact ⟨⟨0, ht⟩, Finset.mem_univ _⟩
  constructor
  · simp only [attnProbs, softmaxRow]
    rw [← Finset.sum_div]
    exact div_self (ne_of_gt hpos)
  · intro kk
    simp only [attnProbs, softmaxRow]
    exact div_nonneg (Real.exp_pos _).le hpos.le

/-- Witness for C6 at a singleton key axis with zero weights. -/
theorem attn_probs_distribution_witness :
    (∑ kk, attnProbs zmha1 zT1 zT1 0 0 0 kk) = 1
    ∧ ∀ kk, 0 ≤ attnProbs zmha1 zT1 zT1 0 0 0 kk :=
  attn_probs_distribution zmha1 zT1 zT1 (by decide) 0 0 0

lemma add_zeroFun {b t d : ℕ} (x : T3 b t d) : x + (fun _ _ _ => (0 : ℝ)) = x := by
  funext bb tt c
  simp

lemma sqrt_one_eps_ne : Real.sqrt (1 + lnEps) ≠ 0 := by
  have : (0 : ℝ) < 1 + lnEps := by norm_num [lnEps]
  exact (Real.sqrt_pos.mpr this).ne'

lemma sumA : (∑ x : Fin (1 * 2), (if (x : ℕ) = 1 then (2 : ℝ) else 0)) = 2 := by
  have h : (∑ x : Fin 2, (if (x : ℕ) = 1 then (2 : ℝ) else 0)) = 2 := by
    rw [Fin.sum_univ_two]
    norm_num
  exact h

lemma sumB : (∑ x : Fin (1 * 2), ((if (x : ℕ) = 1 then (2 : ℝ) else 0) - 1) ^ 2) = 2 := by
  have h : (∑ x : Fin 2, ((if (x : ℕ) = 1 then (2 : ℝ) else 0) - 1) ^ 2) = 2 := by
    rw [Fin.sum_univ_two]
    norm_num
  exact h

/-- C1 counterexample: at zero attention weights, unit LayerNorm scale,
    x the zero stream and y the stream with feature vector (0, 2), the
    value the code concatenates differs from the value the claim
    describes, at batch 0, position 0, feature 1. -/
theorem bidirectional_claim_cex :
    fuseBIcat biW0 zeroT twoT ≠ some (specBIcat biW0 zeroT twoT) := by
  rw [fuseBIcat_unfold]
  intro heq
  have h2 := Option.some.inj heq
  have h3 := congrFun (congrFun (congrFun h2 ⟨0, by omega⟩) ⟨0, by omega⟩) ⟨1, by omega⟩
  simp only [specBIcat, catFeat, biW0] at h3
  rw [dif_pos (by norm_num), dif_pos (by norm_num)] at h3
  simp only [residAttnPost, mhaForward_zmha, add_zeroFun, layerNorm, tMean, tVar,
    show (1 * 2 : ℕ) = 2 from rfl, Fin.sum_univ_two] at h3
  simp only [twoT, zeroT] at h3
  norm_num at h3
  rcases h3 with h | h
  · rw [sumA] at h
    norm_num at h
  · rw [sumA] at h
    rw [show (2 : ℝ) / 2 = 1 from by norm_num] at h
    rw [sumB] at h
    rw [show (2 : ℝ) / 2 = 1 from by norm_num] at h
    exact sqrt_one_eps_ne h
